import Mathlib

/-!
Verification of the image sampling / warping core of the menpo repository.

The repository ships the test suite for this subsystem
(src/menpo/image/test/image_warp_test.py); the implementation modules
(menpo.image.base, menpo.image.masked, menpo.image.boolean and the
interpolation helpers) are not present, so the data model and the
operations below are modelled from the specification, with the
repository's tests pinning the concrete behaviours they assert.

Pixel values are modelled as rationals (exact arithmetic standing in for
the floating point storage); coordinates are pairs of rationals, in
`(row, column)` order, matching the point convention used by the tests.
-/

set_option maxRecDepth 4000

set_option allowUnsafeReducibility true

attribute [local semireducible] Rat.add Rat.sub Rat.neg Rat.mul Rat.inv Rat.div
  Rat.floor Rat.ceil

/-- A continuous spatial coordinate, `(row, column)`. -/
abbrev Coord : Type := ℚ × ℚ

/-- Modelled from the spec (§4.5): a coordinate is in bounds exactly when it
lies inside `[0, shape - 1]` on every axis; the sampler never clamps. -/
def inBounds (rows cols : ℕ) (p : Coord) : Bool :=
  decide (0 ≤ p.1) && decide (p.1 ≤ (rows : ℚ) - 1) &&
  decide (0 ≤ p.2) && decide (p.2 ≤ (cols : ℚ) - 1)

/-- Modelled from the spec (§4.5): reading one grid point of one channel
plane, with the explicit constant-extension policy for out-of-bounds grid
points (`cval`, zero by default in the engine). -/
def readExtend (rows cols : ℕ) (plane : ℕ → ℕ → ℚ) (cval : ℚ) (y x : ℤ) : ℚ :=
  if 0 ≤ y ∧ y < (rows : ℤ) ∧ 0 ≤ x ∧ x < (cols : ℤ)
  then plane y.toNat x.toNat else cval

/-- Modelled from the spec (§4.5): the interpolated value of one channel at
one continuous coordinate.  Order `0` is nearest neighbour; any other order
is the documented deterministic order-1 scheme (multilinear, here bilinear
over the floor/floor+1 grid cell). -/
def interpChannel (order : ℕ) (rows cols : ℕ) (plane : ℕ → ℕ → ℚ) (cval : ℚ)
    (p : Coord) : ℚ :=
  if order = 0 then
    readExtend rows cols plane cval (round p.1) (round p.2)
  else
    (1 - (p.1 - (⌊p.1⌋ : ℚ))) * (1 - (p.2 - (⌊p.2⌋ : ℚ))) *
      readExtend rows cols plane cval ⌊p.1⌋ ⌊p.2⌋
    + (1 - (p.1 - (⌊p.1⌋ : ℚ))) * (p.2 - (⌊p.2⌋ : ℚ)) *
      readExtend rows cols plane cval ⌊p.1⌋ (⌊p.2⌋ + 1)
    + (p.1 - (⌊p.1⌋ : ℚ)) * (1 - (p.2 - (⌊p.2⌋ : ℚ))) *
      readExtend rows cols plane cval (⌊p.1⌋ + 1) ⌊p.2⌋
    + (p.1 - (⌊p.1⌋ : ℚ)) * (p.2 - (⌊p.2⌋ : ℚ)) *
      readExtend rows cols plane cval (⌊p.1⌋ + 1) (⌊p.2⌋ + 1)

/-- Modelled from the spec (glossary, §4.5): the integer grid points an
interpolation order reads along one axis; at an integer coordinate floor
and ceiling coincide and the neighbourhood collapses to that point. -/
def axisNeighbors (q : ℚ) : List ℤ :=
  if ⌊q⌋ = ⌈q⌉ then [⌊q⌋] else [⌊q⌋, ⌈q⌉]

/-- Modelled from the spec (§4.5): the sampling neighbourhood of one
coordinate for a given interpolation order. -/
def neighborhood (order : ℕ) (p : Coord) : List (ℤ × ℤ) :=
  if order = 0 then [(round p.1, round p.2)]
  else (axisNeighbors p.1).flatMap fun y =>
    (axisNeighbors p.2).map fun x => (y, x)

/-- Mask lookup at an integer grid point; out-of-bounds grid points count as
mask-false (spec §4.5). -/
def maskAtZ (mask : ℕ → ℕ → Bool) (rows cols : ℕ) (y x : ℤ) : Bool :=
  decide (0 ≤ y) && decide (y < (rows : ℤ)) &&
  decide (0 ≤ x) && decide (x < (cols : ℤ)) && mask y.toNat x.toNat

/-- Modelled from the spec (§4.5): the per-coordinate validity flag — the
coordinate is in bounds and every grid point of its interpolation
neighbourhood has mask value true. -/
def neighborhoodInMask (mask : ℕ → ℕ → Bool) (rows cols order : ℕ)
    (p : Coord) : Bool :=
  inBounds rows cols p &&
  (neighborhood order p).all fun q => maskAtZ mask rows cols q.1 q.2

/-- Modelled from the spec (§3): an unmasked dense image — spatial shape,
channel count, and a pixel store indexed channel-first like the source
(`pixels[channel, row, column]`). -/
structure Image where
  rows : ℕ
  cols : ℕ
  n_channels : ℕ
  pixels : ℕ → ℕ → ℕ → ℚ

/-- Modelled from the spec (§3): a boolean image/mask with exactly one
logical channel. -/
structure BooleanImage where
  rows : ℕ
  cols : ℕ
  pixels : ℕ → ℕ → Bool

/-- Modelled from the spec (§3): an image paired with a boolean mask of the
same spatial shape (the shape invariant is kept by construction here: one
shared pair of spatial extents). -/
structure MaskedImage where
  rows : ℕ
  cols : ℕ
  n_channels : ℕ
  pixels : ℕ → ℕ → ℕ → ℚ
  mask : ℕ → ℕ → Bool

/-- The unmasked image underlying a masked image. -/
def MaskedImage.toImage (m : MaskedImage) : Image :=
  ⟨m.rows, m.cols, m.n_channels, m.pixels⟩

/-- Modelled from the spec (§4.5, §7): the diagnostic payload of the
out-of-mask sampling failure — per-coordinate sampled values and
per-coordinate validity flags for the whole batch.  Field names follow the
attributes read by test_sample_maskedimage_error_values. -/
structure OutOfMaskSampleError where
  sampled_values : List (List ℚ)
  sampled_mask : List Bool
  deriving DecidableEq

/-- Modelled from the spec (§4.2): the canonical blank constructor for
boolean images. -/
def BooleanImage.init_blank (rows cols : ℕ) (fill : Bool) : BooleanImage :=
  ⟨rows, cols, fun _ _ => fill⟩

/-- The interpolated value of every channel of an image at one coordinate. -/
def Image.samplePoint (img : Image) (order : ℕ) (cval : ℚ) (p : Coord) :
    List ℚ :=
  (List.range img.n_channels).map fun c =>
    interpChannel order img.rows img.cols (img.pixels c) cval p

/-- Modelled from the spec (§4.5, §4.7): sampling a plain image always
succeeds numerically and returns one row of channel values per requested
coordinate. -/
def Image.sample (img : Image) (coords : List Coord) (order : ℕ) (cval : ℚ) :
    List (List ℚ) :=
  coords.map (img.samplePoint order cval)

/-- The validity flag of one coordinate against a masked image. -/
def MaskedImage.validAt (m : MaskedImage) (order : ℕ) (p : Coord) : Bool :=
  neighborhoodInMask m.mask m.rows m.cols order p

/-- Modelled from the spec (§4.5): the full diagnostic result of masked
sampling — values for every coordinate (computed from the stored data) and
the per-coordinate validity flags. -/
def MaskedImage.sampleWithValidity (m : MaskedImage) (coords : List Coord)
    (order : ℕ) (cval : ℚ) : OutOfMaskSampleError :=
  ⟨m.toImage.sample coords order cval, coords.map (m.validAt order)⟩

/-- Modelled from the spec (§4.5, §4.7): the direct sample API on a masked
image — if any coordinate's neighbourhood is not fully inside the mask the
whole call fails with `OutOfMaskSampleError` carrying the full payload. -/
def MaskedImage.sample (m : MaskedImage) (coords : List Coord) (order : ℕ)
    (cval : ℚ) : Except OutOfMaskSampleError (List (List ℚ)) :=
  if (m.sampleWithValidity coords order cval).sampled_mask.all (fun b => b)
  then Except.ok (m.sampleWithValidity coords order cval).sampled_values
  else Except.error (m.sampleWithValidity coords order cval)

/-- Modelled from the spec (§4.6): the warp engine's view of masked
sampling — it calls the raising API and catches the failure, keeping the
per-coordinate payload as data. -/
def MaskedImage.sampleCaught (m : MaskedImage) (coords : List Coord)
    (order : ℕ) (cval : ℚ) : OutOfMaskSampleError :=
  match m.sample coords order cval with
  | Except.ok vs => ⟨vs, coords.map fun _ => true⟩
  | Except.error e => e

/-- The nearest-neighbour boolean read at one coordinate: out-of-bounds
coordinates become false (spec §4.5). -/
def BooleanImage.samplePoint (b : BooleanImage) (p : Coord) : Bool :=
  inBounds b.rows b.cols p &&
  maskAtZ b.pixels b.rows b.cols (round p.1) (round p.2)

/-- Modelled from the spec (§4.5): sampling a boolean image uses order-0
nearest neighbour only, returns booleans directly, and has no failure
mode. -/
def BooleanImage.sample (b : BooleanImage) (coords : List Coord) : List Bool :=
  coords.map b.samplePoint

/-- Modelled from the spec (§4.6): partition a list into chunks of at most
`k` elements; `k = 0` is treated as no batching. -/
def chunksList {α : Type} (k : ℕ) (l : List α) : List (List α) :=
  if hk : k = 0 then [l]
  else
    match l with
    | [] => []
    | x :: xs => ((x :: xs).take k) :: chunksList k ((x :: xs).drop k)
termination_by l.length
decreasing_by
  simp only [List.length_drop, List.length_cons]
  omega

/-- The batch decomposition of the full coordinate list (spec §4.6 step 2):
all at once when `batch_size` is `none`, otherwise chunks of at most the
batch size. -/
def batches {α : Type} (batch : Option ℕ) (l : List α) : List (List α) :=
  match batch with
  | none => [l]
  | some k => chunksList k l

/-- Modelled from the spec (§4.6 steps 2–3): run the sampling function over
each batch and concatenate the per-batch results in order. -/
def batchedSample {α β : Type} (batch : Option ℕ) (fn : List α → List β)
    (l : List α) : List β :=
  ((batches batch l).map fn).flatten

/-- Every output spatial index of a destination shape, in row-major order
(spec §4.6 step 1). -/
def indicesOfShape (h w : ℕ) : List (ℕ × ℕ) :=
  (List.range (h * w)).map fun i => (i / w, i % w)

/-- The destination index set of `warp_to_mask`: the spatial locations where
the template is true (spec §4.6). -/
def trueIndices (t : BooleanImage) : List (ℕ × ℕ) :=
  (indicesOfShape t.rows t.cols).filter fun q => t.pixels q.1 q.2

/-- A spatial index viewed as a continuous coordinate. -/
def coordOf (q : ℕ × ℕ) : Coord := ((q.1 : ℚ), (q.2 : ℚ))

/-- Assembling batched results into the destination container (spec §4.6
step 4): the value written at a destination index is the sampled result at
that index's position in the visited-index list. -/
def gather {β : Type} (idx : List (ℕ × ℕ)) (vals : List β) (q : ℕ × ℕ) :
    Option β :=
  match idx, vals with
  | p :: it, v :: vt => if q = p then some v else gather it vt q
  | _, _ => none

/-- The full sampling pipeline of one warp call: inverse-transform every
visited index, then batch-sample. -/
def warpVals {β : Type} (fn : List Coord → List β) (batch : Option ℕ)
    (idx : List (ℕ × ℕ)) (T : Coord → Coord) : List β :=
  batchedSample batch fn (idx.map fun q => T (coordOf q))

/-- Modelled from the spec (§4.6): `warp_to_shape` on an unmasked image —
every index of the destination shape is sampled through the inverse
transform; the output type mirrors the source type. -/
def Image.warp_to_shape (img : Image) (h w : ℕ) (T : Coord → Coord)
    (batch : Option ℕ) : Image where
  rows := h
  cols := w
  n_channels := img.n_channels
  pixels := fun c y x =>
    ((gather (indicesOfShape h w)
        (warpVals (fun cs => img.sample cs 1 0) batch (indicesOfShape h w) T)
        (y, x)).getD (List.replicate img.n_channels 0)).getD c 0

/-- Modelled from the spec (§4.6): `warp_to_mask` on an unmasked image —
only template-true locations are visited; every visited destination
location becomes mask-true, unvisited locations carry mask-false and the
zero fill of the freshly allocated container. -/
def Image.warp_to_mask (img : Image) (t : BooleanImage) (T : Coord → Coord)
    (batch : Option ℕ) : MaskedImage where
  rows := t.rows
  cols := t.cols
  n_channels := img.n_channels
  pixels := fun c y x =>
    ((gather (trueIndices t)
        (warpVals (fun cs => img.sample cs 1 0) batch (trueIndices t) T)
        (y, x)).getD (List.replicate img.n_channels 0)).getD c 0
  mask := fun y x =>
    (gather (trueIndices t)
        (warpVals (fun cs => img.sample cs 1 0) batch (trueIndices t) T)
        (y, x)).isSome

/-- Modelled from the spec (§4.6): `warp_to_shape` on a masked image — the
engine samples values and per-coordinate validity through the caught
sampler and encodes invalidity as destination mask bits.  Destination
values at visited locations are the diagnostically sampled values (the
zero placeholder is what unvisited / out-of-bounds reads contribute), as
pinned by test_warp_to_mask_masked_image. -/
def MaskedImage.warp_to_shape (m : MaskedImage) (h w : ℕ) (T : Coord → Coord)
    (batch : Option ℕ) : MaskedImage where
  rows := h
  cols := w
  n_channels := m.n_channels
  pixels := fun c y x =>
    ((gather (indicesOfShape h w)
        (warpVals (fun cs => (m.sampleCaught cs 1 0).sampled_values) batch
          (indicesOfShape h w) T)
        (y, x)).getD (List.replicate m.n_channels 0)).getD c 0
  mask := fun y x =>
    (gather (indicesOfShape h w)
        (warpVals (fun cs => (m.sampleCaught cs 1 0).sampled_mask) batch
          (indicesOfShape h w) T)
        (y, x)).getD false

/-- Modelled from the spec (§4.6): `warp_to_mask` on a masked image — the
destination mask is the template AND the per-coordinate validity of the
sampled neighbourhood; values at visited locations are the diagnostically
sampled values (pinned by test_warp_to_mask_masked_image). -/
def MaskedImage.warp_to_mask (m : MaskedImage) (t : BooleanImage)
    (T : Coord → Coord) (batch : Option ℕ) : MaskedImage where
  rows := t.rows
  cols := t.cols
  n_channels := m.n_channels
  pixels := fun c y x =>
    ((gather (trueIndices t)
        (warpVals (fun cs => (m.sampleCaught cs 1 0).sampled_values) batch
          (trueIndices t) T)
        (y, x)).getD (List.replicate m.n_channels 0)).getD c 0
  mask := fun y x =>
    (gather (trueIndices t)
        (warpVals (fun cs => (m.sampleCaught cs 1 0).sampled_mask) batch
          (trueIndices t) T)
        (y, x)).getD false

/-- One batch of the warp engine, written against the raising sample API:
the `OutOfMaskSampleError` of a failing batch is caught and kept as
per-coordinate data (spec §4.6 step 4, §7). -/
def catchOutOfMask (cs : List Coord)
    (r : Except OutOfMaskSampleError (List (List ℚ))) :
    Except OutOfMaskSampleError OutOfMaskSampleError :=
  tryCatch (do
    let vs ← r
    pure ⟨vs, cs.map fun _ => true⟩) fun e => pure e

/-- Modelled from the spec (§4.6): the masked `warp_to_mask` engine in the
exception monad.  Each batch calls the raising sample API and catches the
out-of-mask failure, so the exception can only escape if some batch's
failure were propagated. -/
def MaskedImage.warpToMaskE (m : MaskedImage) (t : BooleanImage)
    (T : Coord → Coord) (batch : Option ℕ) :
    Except OutOfMaskSampleError MaskedImage := do
  let pays ← (batches batch ((trueIndices t).map fun q => T (coordOf q))).mapM
    fun cs => catchOutOfMask cs (m.sample cs 1 0)
  pure
    { rows := t.rows
      cols := t.cols
      n_channels := m.n_channels
      pixels := fun c y x =>
        ((gather (trueIndices t)
            ((pays.map OutOfMaskSampleError.sampled_values).flatten)
            (y, x)).getD (List.replicate m.n_channels 0)).getD c 0
      mask := fun y x =>
        (gather (trueIndices t)
            ((pays.map OutOfMaskSampleError.sampled_mask).flatten)
            (y, x)).getD false }

/-- Modelled from the spec (§4.6): the masked `warp_to_shape` engine in the
exception monad, catching each batch's out-of-mask failure. -/
def MaskedImage.warpToShapeE (m : MaskedImage) (h w : ℕ) (T : Coord → Coord)
    (batch : Option ℕ) : Except OutOfMaskSampleError MaskedImage := do
  let pays ← (batches batch ((indicesOfShape h w).map fun q => T (coordOf q))).mapM
    fun cs => catchOutOfMask cs (m.sample cs 1 0)
  pure
    { rows := h
      cols := w
      n_channels := m.n_channels
      pixels := fun c y x =>
        ((gather (indicesOfShape h w)
            ((pays.map OutOfMaskSampleError.sampled_values).flatten)
            (y, x)).getD (List.replicate m.n_channels 0)).getD c 0
      mask := fun y x =>
        (gather (indicesOfShape h w)
            ((pays.map OutOfMaskSampleError.sampled_mask).flatten)
            (y, x)).getD false }

/-- Modelled from the spec (§4.3): `crop` returns the sub-region
`[min_corner, max_corner)` of the spatial axes, all channels. -/
def Image.crop (img : Image) (minr minc maxr maxc : ℕ) : Image where
  rows := maxr - minr
  cols := maxc - minc
  n_channels := img.n_channels
  pixels := fun c y x => img.pixels c (minr + y) (minc + x)

/-- Extensional equality of images: same shape and channel count, and equal
pixel values over the whole domain. -/
def Image.extEq (a b : Image) : Prop :=
  a.rows = b.rows ∧ a.cols = b.cols ∧ a.n_channels = b.n_channels ∧
  ∀ c y x, c < a.n_channels → y < a.rows → x < a.cols →
    a.pixels c y x = b.pixels c y x

/-! ### List-level facts about batching and result assembly -/

theorem chunksList_flatten {α : Type} (k : ℕ) (l : List α) :
    (chunksList k l).flatten = l := by
  by_cases hk : k = 0
  · unfold chunksList
    simp [hk]
  · cases l with
    | nil => unfold chunksList; simp [hk]
    | cons x xs =>
      unfold chunksList
      rw [dif_neg hk]
      have ih := chunksList_flatten k ((x :: xs).drop k)
      simp only [List.flatten_cons]
      rw [ih, List.take_append_drop]
termination_by l.length
decreasing_by
  simp only [List.length_drop, List.length_cons]
  omega

theorem batches_flatten {α : Type} (b : Option ℕ) (l : List α) :
    (batches b l).flatten = l := by
  cases b with
  | none => simp [batches]
  | some k => exact chunksList_flatten k l

theorem batchedSample_eq_map {α β : Type} (fn : List α → List β) (f : α → β)
    (hfn : ∀ cs, fn cs = cs.map f) (b : Option ℕ) (l : List α) :
    batchedSample b fn l = l.map f := by
  unfold batchedSample
  rw [List.map_congr_left fun cs _ => hfn cs, ← List.map_flatten,
    batches_flatten]

theorem gather_map {β : Type} (g : ℕ × ℕ → β) (q : ℕ × ℕ)
    (idx : List (ℕ × ℕ)) :
    gather idx (idx.map g) q = if q ∈ idx then some (g q) else none := by
  induction idx with
  | nil => simp [gather]
  | cons p it ih =>
    simp only [List.map_cons, gather]
    by_cases hq : q = p
    · subst hq
      simp
    · simp [hq, ih, List.mem_cons]

theorem mem_indicesOfShape (h w y x : ℕ) :
    (y, x) ∈ indicesOfShape h w ↔ y < h ∧ x < w := by
  unfold indicesOfShape
  constructor
  · intro hm
    obtain ⟨i, hi, heq⟩ := List.mem_map.1 hm
    rw [List.mem_range] at hi
    have hw : 0 < w := by
      by_contra hw0
      have hz : w = 0 := by omega
      subst hz
      simp at hi
    have hy : i / w = y := congrArg Prod.fst heq
    have hx : i % w = x := congrArg Prod.snd heq
    subst hy
    subst hx
    exact ⟨(Nat.div_lt_iff_lt_mul hw).2 hi, Nat.mod_lt i hw⟩
  · rintro ⟨hy, hx⟩
    refine List.mem_map.2 ⟨w * y + x, ?_, ?_⟩
    · rw [List.mem_range]
      calc w * y + x < w * y + w := Nat.add_lt_add_left hx _
        _ = w * (y + 1) := (Nat.mul_succ w y).symm
        _ ≤ w * h := Nat.mul_le_mul_left w (Nat.succ_le_of_lt hy)
        _ = h * w := Nat.mul_comm w h
    · have hw : 0 < w := by omega
      have hdiv : (w * y + x) / w = y := by
        rw [Nat.mul_add_div hw, Nat.div_eq_of_lt hx, Nat.add_zero]
      have hmod : (w * y + x) % w = x := by
        rw [Nat.mul_add_mod, Nat.mod_eq_of_lt hx]
      rw [hdiv, hmod]

theorem mem_trueIndices (t : BooleanImage) (y x : ℕ) :
    (y, x) ∈ trueIndices t ↔
      y < t.rows ∧ x < t.cols ∧ t.pixels y x = true := by
  unfold trueIndices
  rw [List.mem_filter, mem_indicesOfShape]
  simp [and_assoc]

theorem map_all_eq_true {α : Type} (f : α → Bool) (l : List α)
    (h : (l.map f).all (fun b => b) = true) :
    l.map f = l.map fun _ => true := by
  induction l with
  | nil => rfl
  | cons a l ih =>
    simp only [List.map_cons, List.all_cons, Bool.and_eq_true] at h
    simp only [List.map_cons]
    rw [h.1, ih h.2]

theorem range_map_getD {β : Type} (n : ℕ) (f : ℕ → β) (d : β) (c : ℕ)
    (hc : c < n) : ((List.range n).map f).getD c d = f c := by
  simp [List.getD, List.getElem?_map, List.getElem?_range, hc]

theorem replicate_getD {β : Type} (n : ℕ) (a : β) (c : ℕ) :
    (List.replicate n a).getD c a = a := by
  simp [List.getD, List.getElem?_replicate]
  split <;> rfl

/-! ### The caught sampler agrees with the diagnostic sampler -/

theorem sampleCaught_eq (m : MaskedImage) (coords : List Coord) (order : ℕ)
    (cval : ℚ) :
    m.sampleCaught coords order cval = m.sampleWithValidity coords order cval := by
  unfold MaskedImage.sampleCaught
  split
  case _ vs heq =>
    unfold MaskedImage.sample at heq
    by_cases hall :
        ((m.sampleWithValidity coords order cval).sampled_mask.all
          fun b => b) = true
    · rw [if_pos hall] at heq
      obtain rfl : (m.sampleWithValidity coords order cval).sampled_values = vs :=
        Except.ok.inj heq
      have hmask := map_all_eq_true (m.validAt order) coords hall
      unfold MaskedImage.sampleWithValidity at hmask ⊢
      rw [← hmask]
    · rw [if_neg hall] at heq
      exact absurd heq (by simp)
  case _ e heq =>
    unfold MaskedImage.sample at heq
    by_cases hall :
        ((m.sampleWithValidity coords order cval).sampled_mask.all
          fun b => b) = true
    · rw [if_pos hall] at heq
      exact absurd heq (by simp)
    · rw [if_neg hall] at heq
      exact (Except.error.inj heq).symm

theorem sampleCaught_values (m : MaskedImage) (order : ℕ) (cval : ℚ)
    (cs : List Coord) :
    (m.sampleCaught cs order cval).sampled_values =
      cs.map (m.toImage.samplePoint order cval) := by
  rw [sampleCaught_eq]
  rfl

theorem sampleCaught_sampled_mask (m : MaskedImage) (order : ℕ) (cval : ℚ)
    (cs : List Coord) :
    (m.sampleCaught cs order cval).sampled_mask = cs.map (m.validAt order) := by
  rw [sampleCaught_eq]
  rfl

/-! ### The warp pipeline, pointwise -/

theorem warpVals_eq {β : Type} (fn : List Coord → List β) (f : Coord → β)
    (hfn : ∀ cs, fn cs = cs.map f) (b : Option ℕ) (idx : List (ℕ × ℕ))
    (T : Coord → Coord) :
    warpVals fn b idx T = idx.map fun q => f (T (coordOf q)) := by
  unfold warpVals
  rw [batchedSample_eq_map fn f hfn, List.map_map]
  rfl

theorem gather_warpVals {β : Type} (fn : List Coord → List β) (f : Coord → β)
    (hfn : ∀ cs, fn cs = cs.map f) (b : Option ℕ) (idx : List (ℕ × ℕ))
    (T : Coord → Coord) (q : ℕ × ℕ) :
    gather idx (warpVals fn b idx T) q =
      if q ∈ idx then some (f (T (coordOf q))) else none := by
  rw [warpVals_eq fn f hfn]
  exact gather_map _ q idx

theorem image_warp_to_shape_pixel (img : Image) (h w : ℕ) (T : Coord → Coord)
    (b : Option ℕ) (c y x : ℕ) (hy : y < h) (hx : x < w)
    (hc : c < img.n_channels) :
    (img.warp_to_shape h w T b).pixels c y x =
      interpChannel 1 img.rows img.cols (img.pixels c) 0 (T (coordOf (y, x))) := by
  simp only [Image.warp_to_shape]
  rw [gather_warpVals (fun cs => img.sample cs 1 0) (img.samplePoint 1 0)
    (fun cs => rfl) b (indicesOfShape h w) T (y, x)]
  rw [if_pos ((mem_indicesOfShape h w y x).2 ⟨hy, hx⟩)]
  show (img.samplePoint 1 0 (T (coordOf (y, x)))).getD c 0 = _
  unfold Image.samplePoint
  exact range_map_getD img.n_channels _ 0 c hc

theorem image_warp_to_mask_pixel (img : Image) (t : BooleanImage)
    (T : Coord → Coord) (b : Option ℕ) (c y x : ℕ) (hy : y < t.rows)
    (hx : x < t.cols) (hc : c < img.n_channels) :
    (img.warp_to_mask t T b).pixels c y x =
      if t.pixels y x = true then
        interpChannel 1 img.rows img.cols (img.pixels c) 0 (T (coordOf (y, x)))
      else 0 := by
  simp only [Image.warp_to_mask]
  rw [gather_warpVals (fun cs => img.sample cs 1 0) (img.samplePoint 1 0)
    (fun cs => rfl) b (trueIndices t) T (y, x)]
  by_cases ht : t.pixels y x = true
  · rw [if_pos ((mem_trueIndices t y x).2 ⟨hy, hx, ht⟩), if_pos ht]
    show (img.samplePoint 1 0 (T (coordOf (y, x)))).getD c 0 = _
    unfold Image.samplePoint
    exact range_map_getD img.n_channels _ 0 c hc
  · rw [if_neg fun hmem => ht ((mem_trueIndices t y x).1 hmem).2.2, if_neg ht]
    show ((Option.none).getD (List.replicate img.n_channels 0)).getD c 0 = 0
    rw [Option.getD_none]
    exact replicate_getD img.n_channels 0 c

theorem image_warp_to_mask_mask_eq (img : Image) (t : BooleanImage)
    (T : Coord → Coord) (b : Option ℕ) (y x : ℕ) (hy : y < t.rows)
    (hx : x < t.cols) :
    (img.warp_to_mask t T b).mask y x = t.pixels y x := by
  simp only [Image.warp_to_mask]
  rw [gather_warpVals (fun cs => img.sample cs 1 0) (img.samplePoint 1 0)
    (fun cs => rfl) b (trueIndices t) T (y, x)]
  by_cases ht : t.pixels y x = true
  · rw [if_pos ((mem_trueIndices t y x).2 ⟨hy, hx, ht⟩), ht]
    rfl
  · rw [if_neg fun hmem => ht ((mem_trueIndices t y x).1 hmem).2.2]
    rw [Bool.not_eq_true] at ht
    rw [ht]
    rfl

theorem masked_warp_to_mask_mask_eq (m : MaskedImage) (t : BooleanImage)
    (T : Coord → Coord) (b : Option ℕ) (y x : ℕ) (hy : y < t.rows)
    (hx : x < t.cols) :
    (m.warp_to_mask t T b).mask y x =
      (t.pixels y x && m.validAt 1 (T (coordOf (y, x)))) := by
  simp only [MaskedImage.warp_to_mask]
  rw [gather_warpVals (fun cs => (m.sampleCaught cs 1 0).sampled_mask)
    (m.validAt 1) (fun cs => sampleCaught_sampled_mask m 1 0 cs) b
    (trueIndices t) T (y, x)]
  by_cases ht : t.pixels y x = true
  · rw [if_pos ((mem_trueIndices t y x).2 ⟨hy, hx, ht⟩), ht, Bool.true_and]
    rfl
  · rw [if_neg fun hmem => ht ((mem_trueIndices t y x).1 hmem).2.2]
    rw [Bool.not_eq_true] at ht
    rw [ht, Bool.false_and]
    rfl

theorem masked_warp_to_mask_pixel (m : MaskedImage) (t : BooleanImage)
    (T : Coord → Coord) (b : Option ℕ) (c y x : ℕ) (hy : y < t.rows)
    (hx : x < t.cols) (hc : c < m.n_channels) :
    (m.warp_to_mask t T b).pixels c y x =
      if t.pixels y x = true then
        interpChannel 1 m.rows m.cols (m.pixels c) 0 (T (coordOf (y, x)))
      else 0 := by
  simp only [MaskedImage.warp_to_mask]
  rw [gather_warpVals (fun cs => (m.sampleCaught cs 1 0).sampled_values)
    (m.toImage.samplePoint 1 0) (fun cs => sampleCaught_values m 1 0 cs) b
    (trueIndices t) T (y, x)]
  by_cases ht : t.pixels y x = true
  · rw [if_pos ((mem_trueIndices t y x).2 ⟨hy, hx, ht⟩), if_pos ht]
    show (m.toImage.samplePoint 1 0 (T (coordOf (y, x)))).getD c 0 = _
    unfold Image.samplePoint
    exact range_map_getD m.n_channels _ 0 c hc
  · rw [if_neg fun hmem => ht ((mem_trueIndices t y x).1 hmem).2.2, if_neg ht]
    show ((Option.none).getD (List.replicate m.n_channels 0)).getD c 0 = 0
    rw [Option.getD_none]
    exact replicate_getD m.n_channels 0 c

theorem masked_warp_to_shape_mask_eq (m : MaskedImage) (h w : ℕ)
    (T : Coord → Coord) (b : Option ℕ) (y x : ℕ) (hy : y < h) (hx : x < w) :
    (m.warp_to_shape h w T b).mask y x = m.validAt 1 (T (coordOf (y, x))) := by
  simp only [MaskedImage.warp_to_shape]
  rw [gather_warpVals (fun cs => (m.sampleCaught cs 1 0).sampled_mask)
    (m.validAt 1) (fun cs => sampleCaught_sampled_mask m 1 0 cs) b
    (indicesOfShape h w) T (y, x)]
  rw [if_pos ((mem_indicesOfShape h w y x).2 ⟨hy, hx⟩)]
  rfl

theorem masked_warp_to_shape_pixel (m : MaskedImage) (h w : ℕ)
    (T : Coord → Coord) (b : Option ℕ) (c y x : ℕ) (hy : y < h) (hx : x < w)
    (hc : c < m.n_channels) :
    (m.warp_to_shape h w T b).pixels c y x =
      interpChannel 1 m.rows m.cols (m.pixels c) 0 (T (coordOf (y, x))) := by
  simp only [MaskedImage.warp_to_shape]
  rw [gather_warpVals (fun cs => (m.sampleCaught cs 1 0).sampled_values)
    (m.toImage.samplePoint 1 0) (fun cs => sampleCaught_values m 1 0 cs) b
    (indicesOfShape h w) T (y, x)]
  rw [if_pos ((mem_indicesOfShape h w y x).2 ⟨hy, hx⟩)]
  show (m.toImage.samplePoint 1 0 (T (coordOf (y, x)))).getD c 0 = _
  unfold Image.samplePoint
  exact range_map_getD m.n_channels _ 0 c hc

/-- Order-1 interpolation at an in-bounds integer grid point reads exactly
that grid point's stored value. -/
theorem interpChannel_natCast (rows cols : ℕ) (plane : ℕ → ℕ → ℚ) (cval : ℚ)
    (y x : ℕ) (hy : y < rows) (hx : x < cols) :
    interpChannel 1 rows cols plane cval ((y : ℚ), (x : ℚ)) = plane y x := by
  unfold interpChannel
  rw [if_neg one_ne_zero]
  simp only [Int.floor_natCast, Int.cast_natCast, sub_self, sub_zero,
    mul_zero, zero_mul, mul_one, one_mul, add_zero, zero_add]
  unfold readExtend
  rw [if_pos]
  · rw [Int.toNat_natCast, Int.toNat_natCast]
  · refine ⟨Int.natCast_nonneg y, ?_, Int.natCast_nonneg x, ?_⟩
    · exact_mod_cast hy
    · exact_mod_cast hx

/-! ### Concrete instances used by witnesses and counterexamples -/

/-- The identity transform. -/
def idT : Coord → Coord := fun p => p

/-- The two sample points `[(0,0), (1,0)]` used by the sampling tests. -/
def ptsTwo : List Coord := [((0 : ℚ), (0 : ℚ)), ((1 : ℚ), (0 : ℚ))]

/-- The masked image of test_sample_maskedimage_error_values: fill 2, mask
true only at `(1,0)` (two channels, per the spec's §8.5 instance). -/
def mErr : MaskedImage :=
  ⟨100, 100, 2, fun _ _ _ => 2, fun y x => decide (y = 1 ∧ x = 0)⟩

/-- A two-channel constant unmasked image. -/
def imgTwoChan : Image := ⟨100, 100, 2, fun _ _ _ => 2⟩

/-- The boolean image of the claim C7 instance as literally stated: all-true
except `(0,1)`. -/
def bSpecCex : BooleanImage := ⟨100, 100, fun y x => !decide (y = 0 ∧ x = 1)⟩

/-- The boolean image of test_sample_booleanimage: all-true except `(1,0)`. -/
def bSpecFix : BooleanImage := ⟨100, 100, fun y x => !decide (y = 1 ∧ x = 0)⟩

/-- A small masked image mirroring test_warp_to_mask_masked_image: constant
fill `5/2`, mask true exactly on the first two rows. -/
def mMasked : MaskedImage :=
  ⟨4, 4, 2, fun _ _ _ => 5/2, fun y _ => decide (y < 2)⟩

/-- A small template mask, true on the top-left `3 × 3` block. -/
def tTempl : BooleanImage := ⟨4, 4, fun y x => decide (y < 3 ∧ x < 3)⟩

/-- A small two-channel image with distinct pixel values. -/
def imgSmall : Image :=
  ⟨2, 3, 2, fun c y x => (c : ℚ) * 100 + (y : ℚ) * 10 + (x : ℚ)⟩

/-! ### Claims -/

/-- C1: for the direct sample API on a MaskedImage, if any requested
coordinate's interpolation neighbourhood is not fully mask-true, the call
fails with `OutOfMaskSampleError` whose payload carries the per-coordinate
sampled values and per-coordinate validity flags for every requested
coordinate of the batch. -/
theorem masked_sample_raises_with_full_payload (m : MaskedImage)
    (coords : List Coord) (order : ℕ) (cval : ℚ)
    (hfail : (coords.map (m.validAt order)).all (fun b => b) = false) :
    m.sample coords order cval =
      Except.error (m.sampleWithValidity coords order cval) ∧
    (m.sampleWithValidity coords order cval).sampled_mask =
      coords.map (m.validAt order) ∧
    (m.sampleWithValidity coords order cval).sampled_values =
      m.toImage.sample coords order cval ∧
    (m.sampleWithValidity coords order cval).sampled_mask.length =
      coords.length ∧
    (m.sampleWithValidity coords order cval).sampled_values.length =
      coords.length := by
  refine ⟨?_, rfl, rfl, ?_, ?_⟩
  · unfold MaskedImage.sample
    rw [if_neg]
    show ¬((coords.map (m.validAt order)).all (fun b => b) = true)
    rw [hfail]
    simp
  · show (coords.map (m.validAt order)).length = coords.length
    exact List.length_map coords _
  · show (coords.map (m.toImage.samplePoint order cval)).length = coords.length
    exact List.length_map coords _

/-- Witness for C1 at the spec's concrete instance: mask true only at
`(1,0)`, fill 2, sampling `[(0,0), (1,0)]` raises with values
`[[2,2],[2,2]]` and validity flags `[false, true]`. -/
theorem masked_sample_raises_with_full_payload_witness :
    (ptsTwo.map (mErr.validAt 1)).all (fun b => b) = false ∧
    mErr.sample ptsTwo 1 0 =
      Except.error (mErr.sampleWithValidity ptsTwo 1 0) ∧
    mErr.sampleWithValidity ptsTwo 1 0 = ⟨[[2, 2], [2, 2]], [false, true]⟩ :=
  ⟨by decide,
   (masked_sample_raises_with_full_payload mErr ptsTwo 1 0 (by decide)).1,
   by decide⟩

/-- C7 counterexample: with the mask all-true except `(0, 1)` — the
instance exactly as the claim states it — sampling `[(0,0), (1,0)]`
returns `[true, true]`, not the claimed `[true, false]`. -/
theorem boolean_sample_spec_instance_cex :
    bSpecCex.sample ptsTwo = [true, true] ∧
    bSpecCex.sample ptsTwo ≠ [true, false] := by
  exact ⟨by decide, by decide⟩

/-- C7 (amended): boolean sampling is order-0 nearest neighbour, total with
one result per coordinate, out-of-bounds coordinates become false, and the
concrete instance of test_sample_booleanimage — mask all-true except
`(1, 0)` — returns `[true, false]` on `[(0,0), (1,0)]`. -/
theorem boolean_sample_amended :
    (∀ (bi : BooleanImage) (coords : List Coord),
      bi.sample coords = coords.map fun p =>
        inBounds bi.rows bi.cols p &&
        maskAtZ bi.pixels bi.rows bi.cols (round p.1) (round p.2)) ∧
    (∀ (bi : BooleanImage) (coords : List Coord),
      (bi.sample coords).length = coords.length) ∧
    (∀ (bi : BooleanImage) (p : Coord), inBounds bi.rows bi.cols p = false →
      bi.sample [p] = [false]) ∧
    bSpecFix.sample ptsTwo = [true, false] := by
  refine ⟨fun bi coords => rfl,
    fun bi coords => List.length_map coords _,
    fun bi p hp => ?_, by decide⟩
  simp [BooleanImage.sample, BooleanImage.samplePoint, hp]

/-- Witness for the amended C7: an out-of-bounds coordinate samples to
false. -/
theorem boolean_sample_amended_witness :
    inBounds 100 100 ((-1 : ℚ), (0 : ℚ)) = false ∧
    bSpecFix.sample [((-1 : ℚ), (0 : ℚ))] = [false] :=
  ⟨by decide,
   boolean_sample_amended.2.2.1 bSpecFix ((-1 : ℚ), (0 : ℚ)) (by decide)⟩

/-- C9: sampling an unmasked image returns a coordinates-by-channels
array — one row per requested coordinate, each row holding one value per
channel. -/
theorem sample_returns_coords_by_channels (img : Image) (coords : List Coord)
    (order : ℕ) (cval : ℚ) :
    (img.sample coords order cval).length = coords.length ∧
    ∀ row ∈ img.sample coords order cval, row.length = img.n_channels := by
  constructor
  · exact List.length_map coords _
  · intro row hrow
    obtain ⟨p, _, rfl⟩ := List.mem_map.1 hrow
    simp [Image.samplePoint]

/-- Witness for C9 at a concrete two-channel image and two points. -/
theorem sample_returns_coords_by_channels_witness :
    (imgTwoChan.sample ptsTwo 1 0).length = 2 ∧
    ∀ row ∈ imgTwoChan.sample ptsTwo 1 0, row.length = 2 :=
  sample_returns_coords_by_channels imgTwoChan ptsTwo 1 0

/-- C3: for `warp_to_mask` with a MaskedImage source the destination mask
is true exactly when the template is true there and the sampled
neighbourhood lies fully inside the source mask (hence the result mask is
a pixel-wise subset of the template); with an unmasked Image source every
visited destination location becomes mask-true (and unvisited locations
false), i.e. the destination mask equals the template. -/
theorem warp_to_mask_destination_mask (m : MaskedImage) (img : Image)
    (t : BooleanImage) (T : Coord → Coord) (b : Option ℕ) (y x : ℕ)
    (hy : y < t.rows) (hx : x < t.cols) :
    (m.warp_to_mask t T b).mask y x =
      (t.pixels y x && m.validAt 1 (T (coordOf (y, x)))) ∧
    ((m.warp_to_mask t T b).mask y x = true → t.pixels y x = true) ∧
    (img.warp_to_mask t T b).mask y x = t.pixels y x := by
  refine ⟨masked_warp_to_mask_mask_eq m t T b y x hy hx, ?_,
    image_warp_to_mask_mask_eq img t T b y x hy hx⟩
  intro htrue
  rw [masked_warp_to_mask_mask_eq m t T b y x hy hx,
    Bool.and_eq_true] at htrue
  exact htrue.1

/-- Witness for C3 at a concrete masked image, template and location. -/
theorem warp_to_mask_destination_mask_witness :
    ((2 : ℕ) < tTempl.rows ∧ (0 : ℕ) < tTempl.cols) ∧
    ((mMasked.warp_to_mask tTempl idT none).mask 2 0 =
        (tTempl.pixels 2 0 && mMasked.validAt 1 (idT (coordOf (2, 0)))) ∧
      ((mMasked.warp_to_mask tTempl idT none).mask 2 0 = true →
        tTempl.pixels 2 0 = true) ∧
      (mMasked.toImage.warp_to_mask tTempl idT none).mask 2 0 =
        tTempl.pixels 2 0) :=
  ⟨⟨by decide, by decide⟩,
   warp_to_mask_destination_mask mMasked mMasked.toImage tTempl idT none 2 0
     (by decide) (by decide)⟩

/-- C5: the identity warp is lossless — warping any image to its own shape
through the identity transform reproduces the image exactly. -/
theorem identity_warp_lossless (img : Image) (b : Option ℕ) :
    Image.extEq (img.warp_to_shape img.rows img.cols (fun p => p) b) img := by
  refine ⟨rfl, rfl, rfl, fun c y x hc hy hx => ?_⟩
  rw [image_warp_to_shape_pixel img img.rows img.cols (fun p => p) b c y x hy
    hx hc]
  exact interpChannel_natCast img.rows img.cols (img.pixels c) 0 y x hy hx

/-- Witness for C5 at a concrete image. -/
theorem identity_warp_lossless_witness :
    Image.extEq (imgSmall.warp_to_shape 2 3 (fun p => p) none) imgSmall :=
  identity_warp_lossless imgSmall none

/-- C6: warping with an integer axis-aligned translation over a destination
shape equal to a sub-region's size reproduces `crop` of that sub-region
exactly, for any channel count. -/
theorem warp_translation_eq_crop (img : Image) (dy dx h w : ℕ)
    (b : Option ℕ) (hh : dy + h ≤ img.rows) (hw : dx + w ≤ img.cols) :
    Image.extEq
      (img.warp_to_shape h w (fun p => (p.1 + (dy : ℚ), p.2 + (dx : ℚ))) b)
      (img.crop dy dx (dy + h) (dx + w)) := by
  refine ⟨?_, ?_, rfl, fun c y x hc hy hx => ?_⟩
  · show h = dy + h - dy
    omega
  · show w = dx + w - dx
    omega
  · have hy2 : y < h := hy
    have hx2 : x < w := hx
    have hc2 : c < img.n_channels := hc
    rw [image_warp_to_shape_pixel img h w _ b c y x hy2 hx2 hc2]
    show interpChannel 1 img.rows img.cols (img.pixels c) 0
      ((coordOf (y, x)).1 + (dy : ℚ), (coordOf (y, x)).2 + (dx : ℚ)) = _
    have e : (((coordOf (y, x)).1 + (dy : ℚ), (coordOf (y, x)).2 + (dx : ℚ)) :
        Coord) = (((y + dy : ℕ) : ℚ), ((x + dx : ℕ) : ℚ)) := by
      simp [coordOf]
    rw [e, interpChannel_natCast img.rows img.cols (img.pixels c) 0 (y + dy)
      (x + dx) (by omega) (by omega)]
    show img.pixels c (y + dy) (x + dx) = img.pixels c (dy + y) (dx + x)
    rw [Nat.add_comm y dy, Nat.add_comm x dx]

/-- Witness for C6 at a concrete image and translation. -/
theorem warp_translation_eq_crop_witness :
    (1 + 1 ≤ imgSmall.rows ∧ 1 + 2 ≤ imgSmall.cols) ∧
    Image.extEq
      (imgSmall.warp_to_shape 1 2
        (fun p => (p.1 + (1 : ℚ), p.2 + (1 : ℚ))) none)
      (imgSmall.crop 1 1 2 3) :=
  ⟨⟨by decide, by decide⟩,
   warp_translation_eq_crop imgSmall 1 1 1 2 none (by decide) (by decide)⟩

/-- C10: `warp_to_shape` produces pixel values identical to `warp_to_mask`
against the all-true template of the same shape, for every Image source,
transform and destination shape. -/
theorem warp_to_shape_eq_warp_to_mask_blank (img : Image) (h w : ℕ)
    (T : Coord → Coord) (b : Option ℕ) (c y x : ℕ) (hc : c < img.n_channels)
    (hy : y < h) (hx : x < w) :
    (img.warp_to_shape h w T b).pixels c y x =
      (img.warp_to_mask (BooleanImage.init_blank h w true) T b).pixels c y x := by
  rw [image_warp_to_shape_pixel img h w T b c y x hy hx hc]
  rw [image_warp_to_mask_pixel img (BooleanImage.init_blank h w true) T b c y x
    hy hx hc]
  simp [BooleanImage.init_blank]

/-- Witness for C10 at a concrete image, shape and location. -/
theorem warp_to_shape_eq_warp_to_mask_blank_witness :
    (imgSmall.warp_to_shape 2 3 idT none).pixels 0 1 1 =
      (imgSmall.warp_to_mask (BooleanImage.init_blank 2 3 true) idT
        none).pixels 0 1 1 :=
  warp_to_shape_eq_warp_to_mask_blank imgSmall 2 3 idT none 0 1 1 (by decide)
    (by decide) (by decide)

/-- C4: batch invariance — for every source (masked or not), template,
destination shape and transform, warping with any positive batch size
produces a result identical to the unbatched run (hence any two valid
batch sizes agree with each other as well). -/
theorem warp_batch_invariance (img : Image) (m : MaskedImage)
    (t : BooleanImage) (h w k : ℕ) (T : Coord → Coord) (hk : 0 < k) :
    img.warp_to_shape h w T (some k) = img.warp_to_shape h w T none ∧
    img.warp_to_mask t T (some k) = img.warp_to_mask t T none ∧
    m.warp_to_shape h w T (some k) = m.warp_to_shape h w T none ∧
    m.warp_to_mask t T (some k) = m.warp_to_mask t T none := by
  have hI := warpVals_eq (fun cs => img.sample cs 1 0) (img.samplePoint 1 0)
    fun cs => rfl
  have hV := warpVals_eq (fun cs => (m.sampleCaught cs 1 0).sampled_values)
    (m.toImage.samplePoint 1 0) fun cs => sampleCaught_values m 1 0 cs
  have hM := warpVals_eq (fun cs => (m.sampleCaught cs 1 0).sampled_mask)
    (m.validAt 1) fun cs => sampleCaught_sampled_mask m 1 0 cs
  refine ⟨?_, ?_, ?_, ?_⟩ <;>
    simp only [Image.warp_to_shape, Image.warp_to_mask,
      MaskedImage.warp_to_shape, MaskedImage.warp_to_mask, hI, hV, hM]

/-- Witness for C4 at a concrete image, shape and batch size. -/
theorem warp_batch_invariance_witness :
    0 < 2 ∧
    imgSmall.warp_to_shape 2 3 idT (some 2) =
      imgSmall.warp_to_shape 2 3 idT none :=
  ⟨by decide,
   (warp_batch_invariance imgSmall mMasked tTempl 2 3 2 idT (by decide)).1⟩

/-- C8 counterexample: at the concrete instance of
test_warp_to_mask_masked_image (constant fill 5/2, source mask false from
row 2 on, template true on the top-left block, identity transform) the
destination location `(2,0)` is out-of-mask — its destination mask is
false — yet its destination pixel value is the diagnostically sampled
5/2, not the zero placeholder the claim states. -/
theorem warp_masked_zero_placeholder_cex :
    (mMasked.warp_to_mask tTempl idT none).mask 2 0 = false ∧
    (mMasked.warp_to_mask tTempl idT none).pixels 0 2 0 = 5/2 ∧
    ¬((mMasked.warp_to_mask tTempl idT none).pixels 0 2 0 = 0) := by
  exact ⟨by decide, by decide, by decide⟩

/-- C8 (amended): when warping a MaskedImage source, every visited
destination location whose sampling is out-of-mask gets mask false and a
destination pixel holding the diagnostically sampled value (computed from
the stored data); the deterministic zero placeholder is what unvisited
(template-false) destination locations hold. -/
theorem warp_masked_out_of_mask_amended (m : MaskedImage) (t : BooleanImage)
    (h w : ℕ) (T : Coord → Coord) (b : Option ℕ) (y x c : ℕ)
    (hc : c < m.n_channels) :
    (y < t.rows → x < t.cols → t.pixels y x = true →
      m.validAt 1 (T (coordOf (y, x))) = false →
      (m.warp_to_mask t T b).mask y x = false ∧
      (m.warp_to_mask t T b).pixels c y x =
        interpChannel 1 m.rows m.cols (m.pixels c) 0 (T (coordOf (y, x)))) ∧
    (y < t.rows → x < t.cols → t.pixels y x = false →
      (m.warp_to_mask t T b).mask y x = false ∧
      (m.warp_to_mask t T b).pixels c y x = 0) ∧
    (y < h → x < w → m.validAt 1 (T (coordOf (y, x))) = false →
      (m.warp_to_shape h w T b).mask y x = false ∧
      (m.warp_to_shape h w T b).pixels c y x =
        interpChannel 1 m.rows m.cols (m.pixels c) 0 (T (coordOf (y, x)))) := by
  refine ⟨fun hy hx ht hv => ⟨?_, ?_⟩, fun hy hx ht => ⟨?_, ?_⟩,
    fun hy hx hv => ⟨?_, ?_⟩⟩
  · rw [masked_warp_to_mask_mask_eq m t T b y x hy hx, ht, hv]
    rfl
  · rw [masked_warp_to_mask_pixel m t T b c y x hy hx hc, if_pos ht]
  · rw [masked_warp_to_mask_mask_eq m t T b y x hy hx, ht]
    rfl
  · rw [masked_warp_to_mask_pixel m t T b c y x hy hx hc, ht]
    simp
  · rw [masked_warp_to_shape_mask_eq m h w T b y x hy hx, hv]
  · rw [masked_warp_to_shape_pixel m h w T b c y x hy hx hc]

/-- Witness for the amended C8 at the concrete test instance. -/
theorem warp_masked_out_of_mask_amended_witness :
    (tTempl.pixels 2 0 = true ∧
      mMasked.validAt 1 (idT (coordOf (2, 0))) = false) ∧
    ((mMasked.warp_to_mask tTempl idT none).mask 2 0 = false ∧
      (mMasked.warp_to_mask tTempl idT none).pixels 0 2 0 =
        interpChannel 1 mMasked.rows mMasked.cols (mMasked.pixels 0) 0
          (idT (coordOf (2, 0)))) :=
  ⟨⟨by decide, by decide⟩,
   (warp_masked_out_of_mask_amended mMasked tTempl 4 4 idT none 2 0 0
       (by decide)).1 (by decide) (by decide) (by decide) (by decide)⟩

theorem catchOutOfMask_sample (m : MaskedImage) (cs : List Coord) :
    catchOutOfMask cs (m.sample cs 1 0) = Except.ok (m.sampleCaught cs 1 0) := by
  unfold catchOutOfMask MaskedImage.sampleCaught
  cases hs : m.sample cs 1 0 with
  | ok vs => rfl
  | error e => rfl

theorem list_mapM_ok {α β ε : Type} (f : α → Except ε β) (g : α → β)
    (hf : ∀ a, f a = Except.ok (g a)) (l : List α) :
    l.mapM f = Except.ok (l.map g) := by
  induction l with
  | nil => rfl
  | cons a l ih =>
    rw [List.mapM_cons, hf a, ih]
    rfl

/-- C2: the warp engines never propagate `OutOfMaskSampleError` — although
every batch goes through the raising sample API, each batch's failure is
caught and its per-coordinate payload absorbed into the result, so both
engines, run in the exception monad, always return the (total) warp
result. -/
theorem warp_never_raises_out_of_mask (m : MaskedImage) (t : BooleanImage)
    (h w : ℕ) (T : Coord → Coord) (b : Option ℕ) :
    m.warpToMaskE t T b = Except.ok (m.warp_to_mask t T b) ∧
    m.warpToShapeE h w T b = Except.ok (m.warp_to_shape h w T b) := by
  constructor
  · unfold MaskedImage.warpToMaskE
    rw [list_mapM_ok (fun cs => catchOutOfMask cs (m.sample cs 1 0))
      (fun cs => m.sampleCaught cs 1 0) (fun cs => catchOutOfMask_sample m cs)]
    show Except.ok _ = Except.ok _
    congr 1
    simp only [MaskedImage.warp_to_mask, warpVals, batchedSample,
      List.map_map, Function.comp_def]
  · unfold MaskedImage.warpToShapeE
    rw [list_mapM_ok (fun cs => catchOutOfMask cs (m.sample cs 1 0))
      (fun cs => m.sampleCaught cs 1 0) (fun cs => catchOutOfMask_sample m cs)]
    show Except.ok _ = Except.ok _
    congr 1
    simp only [MaskedImage.warp_to_shape, warpVals, batchedSample,
      List.map_map, Function.comp_def]
